import Mathlib

/-!
Verification model of the local bundling cache and resolution-resilience
engine of vscode-bundle-size-plus.

The definitions below are shallow embeddings of:
  - src/src/bundler/LocalBundler.ts   (class LocalBundler and module helpers)
  - src/src/providers/BundleSizeProvider.ts  (class BundleSizeProvider)

Modelling conventions:
  - JS `Map` objects become association lists with first-match lookup
    (`mset` prepends after deleting the old binding, matching `Map.set`;
    `mdel` matches `Map.delete`).
  - `Date.now()` values and durations are natural numbers of milliseconds.
    JS computes `Date.now() - t < duration` over signed numbers; for the
    comparisons the code makes, truncated Nat subtraction agrees (a negative
    difference and a truncated-to-zero difference are both `< duration`).
  - Promise objects are modelled by allocation-ordered numeric identities
    (`nextPromise` in the engine state) so that the source's
    `current?.promise === buildPromise` identity test is expressible.
  - Asynchrony is modelled by splitting `getBundleSize` into its synchronous
    decision step (everything before `await`), the completion commit
    (`buildAndMeasure`'s cache writes) and the `finally` cleanup
    (`settlePending`), each an explicit state transformer.
-/

namespace BundleSizePlus

/-! ### Association-list maps (model of JS `Map`) -/

/-- Lookup in an association list, first binding wins (JS `Map.get`). -/
def mget {κ α : Type} [BEq κ] (m : List (κ × α)) (k : κ) : Option α :=
  List.lookup k m

/-- Remove every binding for a key (JS `Map.delete`). -/
def mdel {κ α : Type} [BEq κ] (m : List (κ × α)) (k : κ) : List (κ × α) :=
  m.filter (fun e => !(e.1 == k))

/-- Overwrite the binding for a key (JS `Map.set`). -/
def mset {κ α : Type} [BEq κ] (m : List (κ × α)) (k : κ) (v : α) : List (κ × α) :=
  (k, v) :: mdel m k

/-! ### String utilities

Executable counterparts of the JS string operations the source relies on.
JS compares strings by UTF-16 code units; for the identifier-like strings
involved here this coincides with comparing Unicode scalar values, which is
what `lexLe` does.  We avoid `String.le` / `String.startsWith` from core
because their iterator-based implementations do not reduce in the kernel.
-/

/-- Lexicographic comparison of character lists by code point
(the comparison JS `Array.prototype.sort`'s default comparator applies). -/
def lexLe : List Char → List Char → Bool
  | [], _ => true
  | _ :: _, [] => false
  | a :: as, b :: bs =>
    if a.toNat < b.toNat then true
    else if b.toNat < a.toNat then false
    else lexLe as bs

/-- The sort relation used for the named-imports sort. -/
def strLe (a b : String) : Prop := lexLe a.data b.data = true

instance : DecidableRel strLe := fun a b => instDecidableEqBool (lexLe a.data b.data) true

/-- JS `String.prototype.startsWith`, reducible in the kernel. -/
def strStartsWith (s pre : String) : Bool := pre.data.isPrefixOf s.data

/-- JS `Array.prototype.join(sep)` / the shape of `String.intercalate`. -/
def joinSep (sep : String) : List String → String
  | [] => ""
  | x :: xs => xs.foldl (fun acc y => acc ++ sep ++ y) x

/-- Order-preserving deduplication with an explicit seen-set, so that the
whole definition is structurally recursive. -/
def dedupFirstAux (seen : List String) : List String → List String
  | [] => []
  | x :: xs =>
    if seen.contains x then dedupFirstAux seen xs
    else x :: dedupFirstAux (x :: seen) xs

/-- Order-preserving deduplication, the semantics of JS `[...new Set(xs)]`. -/
def dedupFirst (l : List String) : List String := dedupFirstAux [] l

/-- Substring containment on character lists (JS `String.prototype.includes`). -/
def containsSub (pat : List Char) : List Char → Bool
  | [] => pat.isEmpty
  | c :: cs => pat.isPrefixOf (c :: cs) || containsSub pat cs

/-! ### LocalBundler: data model (src/src/bundler/LocalBundler.ts) -/

/-- `BundleSizeResult` (LocalBundler.ts lines 182-187).  `size` and `gzip`
are byte counts. -/
structure BundleSizeResult where
  name : String
  size : Nat
  gzip : Nat
  version : String
deriving DecidableEq

/-- `BundleRequest` (LocalBundler.ts lines 189-211).  `versionPackageName`
is nullable, hence `Option`. -/
structure BundleRequest where
  id : String
  displayName : String
  entryContent : String
  versionPackageName : Option String
deriving DecidableEq

/-- `BundleCacheState` (LocalBundler.ts line 213). -/
inductive BundleCacheState where
  | cached
  | pending
  | failed
  | missing
  | unavailable
deriving DecidableEq

/-- The mutable fields of `class LocalBundler` (lines 230-236).  A pending
build is the pair (generation, promise identity); promise objects are
modelled by numbers allocated from `nextPromise`. -/
structure BundlerState where
  cache : List (String × (BundleSizeResult × Nat))
  pendingBuilds : List (String × (Nat × Nat))
  failedPackages : List (String × Nat)
  cacheGeneration : Nat
  nextPromise : Nat
deriving DecidableEq

/-- `failedCacheDuration = 5 * 60 * 1000` (line 234). -/
def failedCacheDuration : Nat := 5 * 60 * 1000

/-- `cacheDuration = 60 * 60 * 1000` (line 235). -/
def cacheDuration : Nat := 60 * 60 * 1000

/-- Cache key construction (line 242): `${workspaceRoot}:${request.id}`. -/
def cacheKeyOf (workspaceRoot id : String) : String := workspaceRoot ++ ":" ++ id

/-- The fresh-positive-cache test (lines 246-249 / 297-299 / 324-327):
`cached && Date.now() - cached.timestamp < this.cacheDuration`.  A JS cache
entry object is always truthy, so only presence and freshness matter. -/
def cacheFresh (cache : List (String × (BundleSizeResult × Nat))) (now : Nat)
    (key : String) : Option BundleSizeResult :=
  match mget cache key with
  | some entry => if now - entry.2 < cacheDuration then some entry.1 else none
  | none => none

/-- The fresh-negative test (lines 252-255 / 335-338):
`failedTime && Date.now() - failedTime < this.failedCacheDuration`.
JS `&&` treats the number 0 as falsy, hence the `t != 0` conjunct. -/
def negativeFresh (failedPackages : List (String × Nat)) (now : Nat)
    (key : String) : Bool :=
  match mget failedPackages key with
  | some t => (t != 0) && decide (now - t < failedCacheDuration)
  | none => false

/-- The pending-build test (lines 258-261 / 330-333):
`pending && pending.generation === generation`, yielding the shared promise. -/
def currentPending (pendingBuilds : List (String × (Nat × Nat))) (generation : Nat)
    (key : String) : Option Nat :=
  match mget pendingBuilds key with
  | some gp => if gp.1 = generation then some gp.2 else none
  | none => none

/-- What one `getBundleSize` call does synchronously, before any `await`. -/
inductive SizeAction where
  /-- returned a fresh positive cache entry -/
  | hit (result : BundleSizeResult)
  /-- returned `null` because the key recently failed -/
  | negative
  /-- awaited the existing in-flight promise -/
  | join (promise : Nat)
  /-- published a new pending build and invoked the bundler -/
  | start (promise : Nat)
deriving DecidableEq

/-- The synchronous prefix of `getBundleSize` (lines 241-265): cache check,
negative check, pending check, else publish a new pending build tagged with
the generation captured on entry (`generation = this.cacheGeneration`). -/
def getBundleSizeStep (st : BundlerState) (now : Nat) (key : String) :
    SizeAction × BundlerState :=
  match cacheFresh st.cache now key with
  | some data => (.hit data, st)
  | none =>
    if negativeFresh st.failedPackages now key then (.negative, st)
    else
      match currentPending st.pendingBuilds st.cacheGeneration key with
      | some p => (.join p, st)
      | none =>
        let p := st.nextPromise
        (.start p,
          { st with
              pendingBuilds := mset st.pendingBuilds key (st.cacheGeneration, p),
              nextPromise := p + 1 })

/-- `n` back-to-back `getBundleSize` decision steps for one key (the state of
`n` concurrent callers arriving before any build settles), counting how many
of them invoke the bundler. -/
def runCalls : Nat → BundlerState → Nat → String → Nat
  | 0, _, _, _ => 0
  | Nat.succ n, st, now, key =>
    let step := getBundleSizeStep st now key
    (match step.1 with | .start _ => 1 | _ => 0) + runCalls n step.2 now key

/-- The `finally` block of `getBundleSize` (lines 269-274): delete the pending
entry only if it still holds the exact same promise instance. -/
def settlePending (st : BundlerState) (key : String) (promise : Nat) : BundlerState :=
  match mget st.pendingBuilds key with
  | some current =>
    if current.2 = promise then { st with pendingBuilds := mdel st.pendingBuilds key }
    else st
  | none => st

/-- `getBundleCacheState` (lines 321-345), with esbuild availability
(`isBundlingAvailable`, an environment probe) passed as a parameter. -/
def getBundleCacheState (st : BundlerState) (now : Nat) (key : String)
    (bundlingAvailable : Bool) : BundleCacheState :=
  match cacheFresh st.cache now key with
  | some _ => .cached
  | none =>
    match currentPending st.pendingBuilds st.cacheGeneration key with
    | some _ => .pending
    | none =>
      if negativeFresh st.failedPackages now key then .failed
      else if !bundlingAvailable then .unavailable
      else .missing

/-- `clearCache` (lines 566-577): bump the generation, clear all three maps.
(The esbuild-handle resets concern module-level state outside this model.) -/
def clearCache (st : BundlerState) : BundlerState :=
  { st with
      cacheGeneration := st.cacheGeneration + 1,
      cache := [],
      pendingBuilds := [],
      failedPackages := [] }

/-- The environment one `buildAndMeasure` run observes: the filesystem
(`fs.existsSync`/`fs.readFileSync`, `none` = missing or unreadable), the
version field produced by `JSON.parse(content).version || null` (`none` =
parse threw or the field was falsy), the bundler outcome (`.error` = threw,
`.ok none` = returned null, `.ok (some (minified, gzip))` = success), and
`Date.now()` at completion. -/
structure BuildEnv where
  fsRead : String → Option String
  versionField : String → Option String
  bundleOutcome : Except Unit (Option (Nat × Nat))
  now : Nat

/-- `getPackageVersion` (lines 393-412): read
`node_modules/<packageName>/package.json` under the workspace root; any
failure is caught and becomes `null`. -/
def getPackageVersion (env : BuildEnv) (packageName workspaceRoot : String) :
    Option String :=
  let packageJsonPath :=
    workspaceRoot ++ "/node_modules/" ++ packageName ++ "/package.json"
  match env.fsRead packageJsonPath with
  | none => none
  | some content => env.versionField content

/-- The negative commit (lines 362-364 and 386-388): record the failure time
only if the generation captured at start still equals the current one. -/
def recordFailure (st : BundlerState) (key : String) (generation now : Nat) :
    BundlerState :=
  if generation = st.cacheGeneration then
    { st with failedPackages := mset st.failedPackages key now }
  else st

/-- The positive commit (lines 376-381), with the same generation guard. -/
def recordSuccess (st : BundlerState) (key : String) (result : BundleSizeResult)
    (generation now : Nat) : BundlerState :=
  if generation = st.cacheGeneration then
    { st with cache := mset st.cache key (result, now) }
  else st

/-- `buildAndMeasure` (lines 347-391) as a function of the environment at
completion time and the engine state at completion time: compute the version
label, then commit the bundle outcome under the generation guard.
`getPackageVersion` catches its own exceptions, so only the bundle outcome
decides success. -/
def buildAndMeasure (request : BundleRequest) (workspaceRoot : String)
    (cacheKey : String) (generation : Nat) (env : BuildEnv) (st : BundlerState) :
    Option BundleSizeResult × BundlerState :=
  let version :=
    match request.versionPackageName with
    | some p => getPackageVersion env p workspaceRoot
    | none => none
  let versionLabel :=
    match request.versionPackageName with
    | some _ => version.getD "unknown"
    | none => "local"
  match env.bundleOutcome with
  | .error _ => (none, recordFailure st cacheKey generation env.now)
  | .ok none => (none, recordFailure st cacheKey generation env.now)
  | .ok (some sizes) =>
    let sizeResult : BundleSizeResult :=
      { name := request.displayName, size := sizes.1, gzip := sizes.2,
        version := versionLabel }
    (some sizeResult, recordSuccess st cacheKey sizeResult generation env.now)

/-! ### formatSize (LocalBundler.ts lines 582-594)

`formatSize` computes
  `i = Math.floor(Math.log(bytes) / Math.log(1024))`,
  `value = parseFloat((bytes / Math.pow(1024, i)).toFixed(2))`,
and renders `value` without the decimal point when `value % 1 === 0`.

The model below is the exact-arithmetic reading of that code:
  - `floorLog 1024 bytes` is `⌊log_1024 bytes⌋`.  For byte counts below
    2^53 the floating-point quotient of logarithms floors to the same value
    (the nearest integer ratios only occur at powers of 1024, where the
    float computation is exact because scaling by a power of two commutes
    with rounding).
  - `bytes / 1024^i` is a dyadic rational, so `toFixed(2)` (round to
    hundredths) never hits a tie; `hundredths` is `value` scaled by 100.
  - `parseFloat(x.toFixed(2))` followed by `value % 1 === 0` / `toString`
    renders: no decimal point when the hundredths are 0, one digit when
    they are a multiple of 10 (the trailing zero is dropped), two digits
    otherwise.
  - `sizes[i]` on the 4-element unit array is `undefined` for `i ≥ 4`, and
    the template literal stringifies it as "undefined". -/

/-- Fuelled floor-logarithm; with fuel ≥ n it is ⌊log_b n⌋ for b ≥ 2, n ≥ 1. -/
def floorLogAux (b : Nat) : Nat → Nat → Nat
  | _, 0 => 0
  | n, Nat.succ fuel => if n < b then 0 else floorLogAux b (n / b) fuel + 1

/-- ⌊log_b n⌋, the exact value of `Math.floor(Math.log(n) / Math.log(b))`. -/
def floorLog (b n : Nat) : Nat := floorLogAux b n n

/-- `sizes = ['B', 'KB', 'MB', 'GB']` (line 588). -/
def formatSizeUnits : List String := ["B", "KB", "MB", "GB"]

/-- `formattedValue` (lines 590-592) for a value given in hundredths:
`parseFloat(value.toFixed(2))` rendered via `value % 1 === 0 ? value.toFixed(0)
: value.toString()` — no decimal point for whole values, one fractional digit
when the hundredths end in zero, two otherwise. -/
def formatHundredths (hundredths : Nat) : String :=
  let intPart := hundredths / 100
  let frac := hundredths % 100
  if frac = 0 then Nat.repr intPart
  else if frac % 10 = 0 then Nat.repr intPart ++ "." ++ Nat.repr (frac / 10)
  else if frac < 10 then Nat.repr intPart ++ ".0" ++ Nat.repr frac
  else Nat.repr intPart ++ "." ++ Nat.repr frac

/-- `formatSize` (lines 582-594) under the exact-arithmetic reading above:
`(200 * bytes + d) / (2 * d)` is `bytes / d` rounded to hundredths (no tie is
possible for a dyadic value). -/
def formatSize (bytes : Nat) : String :=
  if bytes = 0 then "0B"
  else
    formatHundredths
        ((200 * bytes + 1024 ^ floorLog 1024 bytes) /
          (2 * 1024 ^ floorLog 1024 bytes)) ++
      formatSizeUnits.getD (floorLog 1024 bytes) "undefined"

/-! ### Graceful externalization (LocalBundler.ts lines 50-52 and 423-475) -/

/-- `path.sep` on POSIX hosts. -/
def pathSep : String := "/"

/-- `isInNodeModules` (lines 50-52):
`filePath.includes(`${path.sep}node_modules${path.sep}`)`. -/
def isInNodeModules (filePath : String) : Bool :=
  containsSub (pathSep ++ "node_modules" ++ pathSep).data filePath.data

/-- The arguments one bare-specifier `onResolve` event carries: `args.path`,
`args.importer` (the empty string when there is no importer, as esbuild
reports it), and whether `args.pluginData[skipResolveKey]` is set. -/
structure ResolveArgs where
  path : String
  importer : String
  skipResolve : Bool

/-- The outcome of the nested `build.resolve` call (line 450): its `errors`
array and, on success, the fields the plugin forwards. -/
structure ResolveResult where
  errors : List String
  path : String
  /-- esbuild's `namespace` field (a Lean keyword, hence the name). -/
  nspace : String
  external : Bool
  sideEffects : Bool

/-- An `OnResolveResult` value as the plugin produces it: the externalized
form sets only `path`/`external`, the pass-through form copies the resolved
fields. -/
structure OnResolveOut where
  path : String
  external : Bool
  nspace : Option String := none
  sideEffects : Option Bool := none
deriving DecidableEq

/-- Lines 450-472 without the memo: resolve, then externalize on errors or
pass the resolution through unmodified. -/
def freshResolveAnswer (resolve : String → String → ResolveResult)
    (importer specPath : String) : OnResolveOut :=
  let resolved := resolve specPath importer
  if resolved.errors.length > 0 then
    { path := specPath, external := true }
  else
    { path := resolved.path, external := resolved.external,
      nspace := some resolved.nspace, sideEffects := some resolved.sideEffects }

/-- The bare-specifier `onResolve` callback (lines 433-473): skip-guard,
importer guard, memo lookup, nested resolution, memo store.  `resolve`
abstracts `build.resolve` for this build; the memo key is the
`(importer, path)` pair (the source joins them with a NUL byte). -/
def onResolveBare (resolve : String → String → ResolveResult)
    (cache : List ((String × String) × OnResolveOut)) (args : ResolveArgs) :
    Option OnResolveOut × List ((String × String) × OnResolveOut) :=
  if args.skipResolve then (none, cache)
  else if args.importer = "" || !isInNodeModules args.importer then (none, cache)
  else
    match mget cache (args.importer, args.path) with
    | some cached => (some cached, cache)
    | none =>
      let ans := freshResolveAnswer resolve args.importer args.path
      (some ans, mset cache (args.importer, args.path) ans)

/-- The memo only ever holds answers the no-memo computation would give. -/
def resolveCacheCoherent (resolve : String → String → ResolveResult)
    (cache : List ((String × String) × OnResolveOut)) : Prop :=
  ∀ imp p r, mget cache (imp, p) = some r → r = freshResolveAnswer resolve imp p

/-! ### BundleSizeProvider (src/src/providers/BundleSizeProvider.ts) -/

/-- `ImportKind = 'import' | 'export' | 'require'` (ImportParser.ts line 6).
`import`/`export` are Lean keywords, hence the short constructor names. -/
inductive ImportKind where
  | imp
  | exp
  | req
deriving DecidableEq

/-- The string each kind contributes to the cache id. -/
def kindTag : ImportKind → String
  | .imp => "import"
  | .exp => "export"
  | .req => "require"

/-- The fields of the import target `createBundleRequest` consumes
(BundleSizeProvider.ts lines 262-271).  Optional TS fields default the way
`?? 'import'` / `!!flag` / `?? []` normalize them. -/
structure ImportTarget where
  packageName : String
  kind : ImportKind := .imp
  namedImports : List String := []
  hasDefaultImport : Bool := false
  hasNamespaceImport : Bool := false
  isSideEffectOnly : Bool := false
  isExportAll : Bool := false
  isLocal : Bool := false

/-- Remove every single or double quote (`specifier.replace(/['"]/g, '')`,
line 411). -/
def stripQuotes (s : String) : String :=
  String.mk (s.data.filter (fun c => !(c == Char.ofNat 39) && !(c == Char.ofNat 34)))

/-- `normalizeModuleSpecifier` (lines 409-426): strip quotes, then keep only
the segment before the first `?` or `#`. -/
def normalizeModuleSpecifier (specifier : String) : String :=
  let normalized := stripQuotes specifier
  String.mk (normalized.data.takeWhile (fun c => !(c == '?') && !(c == '#')))

/-- `[...new Set(target.namedImports ?? [])]
      .filter((name) => name && name !== 'default')
      .sort()` (lines 286-288). -/
def processNamedImports (namedImports : List String) : List String :=
  List.insertionSort strLe
    ((dedupFirst namedImports).filter (fun n => !(n == "") && !(n == "default")))

/-- The descriptor `createEntryContent`/`createDisplayName` receive
(lines 307-325). -/
structure EntryTarget where
  kind : ImportKind
  moduleSpecifier : String
  namedImports : List String
  hasDefaultImport : Bool
  hasNamespaceImport : Bool
  isSideEffectOnly : Bool
  isExportAll : Bool

/-- One hex digit, lowercase. -/
def hexDigit (n : Nat) : String :=
  String.singleton (Char.ofNat (if n < 10 then 48 + n else 87 + n))

/-- How `JSON.stringify` escapes one character of a string. -/
def jsonEscapeChar (c : Char) : String :=
  if c = Char.ofNat 34 then "\\\""
  else if c = Char.ofNat 92 then "\\\\"
  else if c = Char.ofNat 8 then "\\b"
  else if c = Char.ofNat 9 then "\\t"
  else if c = Char.ofNat 10 then "\\n"
  else if c = Char.ofNat 12 then "\\f"
  else if c = Char.ofNat 13 then "\\r"
  else if c.toNat < 32 then "\\u00" ++ hexDigit (c.toNat / 16) ++ hexDigit (c.toNat % 16)
  else String.singleton c

/-- `JSON.stringify(target.moduleSpecifier)` (line 344). -/
def jsonQuote (s : String) : String :=
  "\"" ++ String.join (s.data.map jsonEscapeChar) ++ "\""

/-- `createEntryContent` (lines 335-371).  Literal braces in the emitted
source are written via their character codes. -/
def createEntryContent (target : EntryTarget) : String :=
  let spec := jsonQuote target.moduleSpecifier
  if target.isExportAll then
    "export * from " ++ spec ++ ";"
  else if target.isSideEffectOnly then
    "import " ++ spec ++ ";"
  else if target.hasNamespaceImport then
    joinSep "\n"
      ["import * as __bundleSizePlusNs from " ++ spec ++ ";",
       "export \x7b __bundleSizePlusNs \x7d;"]
  else
    joinSep "\n"
      ((if target.hasDefaultImport then
          ["export \x7b default as __bundleSizePlusDefault \x7d from " ++ spec ++ ";"]
        else []) ++
       (if target.namedImports.length > 0 then
          ["export \x7b " ++ joinSep ", " target.namedImports ++ " \x7d from " ++ spec ++ ";"]
        else []))

/-- `createDisplayName` (lines 373-407). -/
def createDisplayName (target : EntryTarget) : String :=
  if target.isExportAll then
    joinSep " " [target.moduleSpecifier, "(export *)"]
  else if target.isSideEffectOnly then
    joinSep " " [target.moduleSpecifier, "(side-effect)"]
  else
    joinSep " "
      ([target.moduleSpecifier] ++
       (if target.hasNamespaceImport then ["(*)"] else []) ++
       (if target.hasDefaultImport then ["(default)"] else []) ++
       (if target.namedImports.length > 0 then
          ["\x7b " ++ joinSep ", " target.namedImports ++ " \x7d"]
        else []))

/-- JS `String.prototype.split` with a one-character separator. -/
def splitChar (c : Char) : List Char → List Char → List String
  | [], acc => [String.mk acc.reverse]
  | x :: xs, acc =>
    if x == c then String.mk acc.reverse :: splitChar c xs []
    else splitChar c xs (x :: acc)

/-- `getRootPackageName` (lines 428-446). -/
def getRootPackageName (moduleSpecifier : String) : Option String :=
  if strStartsWith moduleSpecifier "./" || strStartsWith moduleSpecifier "../" ||
      strStartsWith moduleSpecifier "/" || strStartsWith moduleSpecifier "~/" ||
      strStartsWith moduleSpecifier "@/" || strStartsWith moduleSpecifier "#/" ||
      strStartsWith moduleSpecifier "node:" then
    none
  else
    let parts := splitChar '/' moduleSpecifier.data []
    if strStartsWith moduleSpecifier "@" then
      if parts.length ≥ 2 then some (parts.getD 0 "" ++ "/" ++ parts.getD 1 "")
      else none
    else some (parts.getD 0 "")

/-- `createBundleRequest` (lines 262-333). -/
def createBundleRequest (t : ImportTarget) : Option BundleRequest :=
  if t.isLocal then none
  else
    let moduleSpecifier := normalizeModuleSpecifier t.packageName
    if moduleSpecifier = "" || strStartsWith moduleSpecifier "node:" then none
    else
      let kind := t.kind
      let namedImports := processNamedImports t.namedImports
      let runtimeSpecifierCount :=
        (if t.isExportAll then 1 else 0) + (if t.hasDefaultImport then 1 else 0) +
          (if t.hasNamespaceImport then 1 else 0) + namedImports.length
      let isSideEffectOnly := (runtimeSpecifierCount == 0) || t.isSideEffectOnly
      let idParts :=
        [kindTag kind, moduleSpecifier,
         "all:" ++ (if t.isExportAll then "1" else "0"),
         "default:" ++ (if t.hasDefaultImport then "1" else "0"),
         "ns:" ++ (if t.hasNamespaceImport then "1" else "0"),
         "side:" ++ (if isSideEffectOnly then "1" else "0"),
         "named:" ++ joinSep "," namedImports]
      let entryTarget : EntryTarget :=
        { kind, moduleSpecifier, namedImports,
          hasDefaultImport := t.hasDefaultImport,
          hasNamespaceImport := t.hasNamespaceImport,
          isSideEffectOnly, isExportAll := t.isExportAll }
      some
        { id := joinSep "|" idParts,
          displayName := createDisplayName entryTarget,
          entryContent := createEntryContent entryTarget,
          versionPackageName := getRootPackageName moduleSpecifier }

/-- `getImportCacheId` (lines 257-260): `request?.id ?? null`. -/
def getImportCacheId (t : ImportTarget) : Option String :=
  (createBundleRequest t).map (fun r => r.id)

/-- `getCachedBundleSize` (LocalBundler.ts lines 295-302). -/
def getCachedBundleSize (st : BundlerState) (now : Nat) (key : String) :
    Option BundleSizeResult :=
  cacheFresh st.cache now key

/-- `getImportSize` (BundleSizeProvider.ts lines 241-252) up to the bundler
hand-off: `none` means the call returned null without touching the engine;
otherwise the engine runs its `getBundleSize` decision step. -/
def getImportSizeStep (t : ImportTarget) (workspaceRoot : Option String)
    (st : BundlerState) (now : Nat) : Option (SizeAction × BundlerState) :=
  match workspaceRoot with
  | none => none
  | some root =>
    match createBundleRequest t with
    | none => none
    | some request => some (getBundleSizeStep st now (cacheKeyOf root request.id))

/-- `getCachedImportSize` (lines 208-219). -/
def getCachedImportSize (t : ImportTarget) (workspaceRoot : Option String)
    (st : BundlerState) (now : Nat) : Option BundleSizeResult :=
  match workspaceRoot with
  | none => none
  | some root =>
    match createBundleRequest t with
    | none => none
    | some request => getCachedBundleSize st now (cacheKeyOf root request.id)

/-- `getImportCacheState` (lines 228-239). -/
def getImportCacheState (t : ImportTarget) (workspaceRoot : Option String)
    (st : BundlerState) (now : Nat) (bundlingAvailable : Bool) : BundleCacheState :=
  match workspaceRoot with
  | none => .unavailable
  | some root =>
    match createBundleRequest t with
    | none => .unavailable
    | some request =>
      getBundleCacheState st now (cacheKeyOf root request.id) bundlingAvailable

/-- A concrete request, build environment and engine state used by the
scenario witnesses. -/
def sampleRequest : BundleRequest :=
  { id := "pkg:p", displayName := "p", entryContent := "e", versionPackageName := none }

/-- A build environment whose bundle succeeds with 10 minified / 4 gzip bytes
at completion time 50. -/
def sampleOkEnv : BuildEnv :=
  { fsRead := fun _ => none, versionField := fun _ => none,
    bundleOutcome := .ok (some (10, 4)), now := 50 }

/-- An engine state at generation 0 holding one pending build for the sample
key. -/
def samplePendingState : BundlerState :=
  { cache := [], pendingBuilds := [("/ws:pkg:p", (0, 0))], failedPackages := [],
    cacheGeneration := 0, nextPromise := 1 }

/-- A resolver for which the specifier "optional-dep" fails and everything
else resolves to a nested install path. -/
def sampleResolve : String → String → ResolveResult := fun p _ =>
  if p = "optional-dep" then
    { errors := ["Could not resolve"], path := "", nspace := "",
      external := false, sideEffects := false }
  else
    { errors := [], path := "/ws/node_modules/a/node_modules/b/index.js",
      nspace := "file", external := false, sideEffects := true }

/-- A request whose installed version should be read from the lodash
manifest. -/
def sampleVersionRequest : BundleRequest :=
  { id := "pkg:lodash", displayName := "lodash", entryContent := "e",
    versionPackageName := some "lodash" }

/-- An engine state with empty maps at generation 0. -/
def sampleEmptyState : BundlerState :=
  { cache := [], pendingBuilds := [], failedPackages := [], cacheGeneration := 0,
    nextPromise := 0 }

/-! ### Lemmas about the association-list maps -/

theorem mget_nil {κ α : Type} [BEq κ] (k : κ) : mget ([] : List (κ × α)) k = none := rfl

theorem mget_mdel_self {κ α : Type} [BEq κ] [LawfulBEq κ] (m : List (κ × α)) (k : κ) :
    mget (mdel m k) k = none := by
  induction m with
  | nil => rfl
  | cons e es ih =>
    by_cases he : e.1 = k
    · simpa [mdel, List.filter, he] using ih
    · have hne : (e.1 == k) = false := beq_eq_false_iff_ne.mpr he
      have hne' : (k == e.1) = false := beq_eq_false_iff_ne.mpr (Ne.symm he)
      simp only [mdel, List.filter, hne, Bool.not_false] at ih ⊢
      simpa [mget, List.lookup, hne'] using ih

theorem mget_mdel_ne {κ α : Type} [BEq κ] [LawfulBEq κ] (m : List (κ × α)) (k k' : κ)
    (h : k' ≠ k) : mget (mdel m k) k' = mget m k' := by
  induction m with
  | nil => rfl
  | cons e es ih =>
    by_cases he : e.1 = k
    · have ht : (e.1 == k) = true := beq_iff_eq.mpr he
      have hk' : (k' == e.1) = false :=
        beq_eq_false_iff_ne.mpr (fun hh => h (hh.trans he))
      simp only [mdel, List.filter, ht, Bool.not_true] at ih ⊢
      simpa [mget, List.lookup, hk'] using ih
    · have hne : (e.1 == k) = false := beq_eq_false_iff_ne.mpr he
      by_cases hk' : k' = e.1
      · simp [mget, mdel, List.filter, hne, List.lookup, hk']
      · have hk'' : (k' == e.1) = false := beq_eq_false_iff_ne.mpr hk'
        simp only [mdel, List.filter, hne, Bool.not_false] at ih ⊢
        simpa [mget, List.lookup, hk''] using ih

theorem mget_mset_self {κ α : Type} [BEq κ] [LawfulBEq κ] (m : List (κ × α)) (k : κ) (v : α) :
    mget (mset m k v) k = some v := by
  simp [mget, mset, List.lookup]

theorem mget_mset_ne {κ α : Type} [BEq κ] [LawfulBEq κ] (m : List (κ × α)) (k k' : κ) (v : α)
    (h : k' ≠ k) : mget (mset m k v) k' = mget m k' := by
  have : mget (mdel m k) k' = mget m k' := mget_mdel_ne m k k' h
  simpa [mget, mset, List.lookup, beq_eq_false_iff_ne.mpr h] using this

/-! ### Lemmas about the string utilities -/

theorem lexLe_total (as bs : List Char) : lexLe as bs = true ∨ lexLe bs as = true := by
  induction as generalizing bs with
  | nil => left; rfl
  | cons a as ih =>
    cases bs with
    | nil => right; rfl
    | cons b bs =>
      rcases Nat.lt_trichotomy a.toNat b.toNat with hlt | heq | hgt
      · left; simp [lexLe, hlt]
      · have hnlt : ¬ a.toNat < b.toNat := by omega
        have hnlt' : ¬ b.toNat < a.toNat := by omega
        rcases ih bs with h | h
        · left; simp [lexLe, hnlt, hnlt', h]
        · right; simp [lexLe, hnlt, hnlt', h]
      · right; simp [lexLe, hgt]

theorem lexLe_trans {as bs cs : List Char} (h₁ : lexLe as bs = true)
    (h₂ : lexLe bs cs = true) : lexLe as cs = true := by
  induction as generalizing bs cs with
  | nil => rfl
  | cons a as ih =>
    cases bs with
    | nil => simp [lexLe] at h₁
    | cons b bs =>
      cases cs with
      | nil => simp [lexLe] at h₂
      | cons c cs =>
        simp only [lexLe] at h₁ h₂ ⊢
        by_cases hab : a.toNat < b.toNat
        · by_cases hbc : b.toNat < c.toNat
          · rw [if_pos (Nat.lt_trans hab hbc)]
          · by_cases hcb : c.toNat < b.toNat
            · rw [if_neg hbc, if_pos hcb] at h₂; exact absurd h₂ (by simp)
            · rw [if_pos (show a.toNat < c.toNat by omega)]
        · by_cases hba : b.toNat < a.toNat
          · rw [if_neg hab, if_pos hba] at h₁; exact absurd h₁ (by simp)
          · rw [if_neg hab, if_neg hba] at h₁
            by_cases hbc : b.toNat < c.toNat
            · rw [if_pos (show a.toNat < c.toNat by omega)]
            · by_cases hcb : c.toNat < b.toNat
              · rw [if_neg hbc, if_pos hcb] at h₂; exact absurd h₂ (by simp)
              · rw [if_neg hbc, if_neg hcb] at h₂
                rw [if_neg (show ¬ a.toNat < c.toNat by omega),
                  if_neg (show ¬ c.toNat < a.toNat by omega)]
                exact ih h₁ h₂

theorem char_eq_of_toNat_eq {a b : Char} (h : a.toNat = b.toNat) : a = b :=
  Char.ext (UInt32.ext h)

theorem lexLe_antisymm {as bs : List Char} (h₁ : lexLe as bs = true)
    (h₂ : lexLe bs as = true) : as = bs := by
  induction as generalizing bs with
  | nil =>
    cases bs with
    | nil => rfl
    | cons b bs => simp [lexLe] at h₂
  | cons a as ih =>
    cases bs with
    | nil => simp [lexLe] at h₁
    | cons b bs =>
      simp only [lexLe] at h₁ h₂
      rcases Nat.lt_trichotomy a.toNat b.toNat with hab | hab | hab
      · simp [hab, Nat.lt_asymm hab] at h₂
      · have hnab : ¬ a.toNat < b.toNat := by omega
        have hnba : ¬ b.toNat < a.toNat := by omega
        simp only [hnab, hnba, if_false] at h₁ h₂
        have := ih h₁ h₂
        rw [char_eq_of_toNat_eq hab, this]
      · simp [hab, Nat.lt_asymm hab] at h₁

theorem mem_dedupFirstAux {a : String} :
    ∀ {l seen : List String}, a ∈ dedupFirstAux seen l ↔ a ∈ l ∧ a ∉ seen := by
  intro l
  induction l with
  | nil => intro seen; simp [dedupFirstAux]
  | cons x xs ih =>
    intro seen
    by_cases hx : x ∈ seen
    · have hc : seen.contains x = true := List.elem_iff.mpr hx
      rw [dedupFirstAux, if_pos hc, ih, List.mem_cons]
      constructor
      · rintro ⟨h₁, h₂⟩
        exact ⟨Or.inr h₁, h₂⟩
      · rintro ⟨h₁ | h₁, h₂⟩
        · exact absurd (h₁ ▸ hx) h₂
        · exact ⟨h₁, h₂⟩
    · have : ¬ seen.contains x = true := fun hc => hx (List.elem_iff.mp hc)
      rw [dedupFirstAux, if_neg this]
      by_cases hax : a = x
      · subst hax; simp [hx]
      · rw [List.mem_cons]
        simp only [hax, false_or]
        rw [ih]
        constructor
        · rintro ⟨h₁, h₂⟩
          exact ⟨List.mem_cons_of_mem _ h₁,
            fun hs => h₂ (List.mem_cons_of_mem _ hs)⟩
        · rintro ⟨h₁, h₂⟩
          rcases List.mem_cons.mp h₁ with rfl | h₁
          · exact absurd rfl hax
          · refine ⟨h₁, fun hs => ?_⟩
            rcases List.mem_cons.mp hs with rfl | hs
            · exact hax rfl
            · exact h₂ hs

theorem mem_dedupFirst {a : String} {l : List String} : a ∈ dedupFirst l ↔ a ∈ l := by
  rw [dedupFirst, mem_dedupFirstAux]
  simp

theorem nodup_dedupFirstAux : ∀ (l seen : List String), (dedupFirstAux seen l).Nodup := by
  intro l
  induction l with
  | nil => intro seen; exact List.nodup_nil
  | cons x xs ih =>
    intro seen
    rw [dedupFirstAux]
    by_cases hx : seen.contains x = true
    · rw [if_pos hx]; exact ih seen
    · rw [if_neg hx]
      refine List.nodup_cons.mpr ⟨fun hmem => ?_, ih (x :: seen)⟩
      exact (mem_dedupFirstAux.mp hmem).2 (List.mem_cons_self x seen)

theorem nodup_dedupFirst (l : List String) : (dedupFirst l).Nodup :=
  nodup_dedupFirstAux l []

/-! ### Helper lemmas: the four branches of the `getBundleSize` decision -/

theorem step_hit {st : BundlerState} {now : Nat} {key : String} {r : BundleSizeResult}
    (h : cacheFresh st.cache now key = some r) :
    getBundleSizeStep st now key = (.hit r, st) := by
  simp [getBundleSizeStep, h]

theorem step_negative {st : BundlerState} {now : Nat} {key : String}
    (h₁ : cacheFresh st.cache now key = none)
    (h₂ : negativeFresh st.failedPackages now key = true) :
    getBundleSizeStep st now key = (.negative, st) := by
  simp [getBundleSizeStep, h₁, h₂]

theorem step_join {st : BundlerState} {now : Nat} {key : String} {p : Nat}
    (h₁ : cacheFresh st.cache now key = none)
    (h₂ : negativeFresh st.failedPackages now key = false)
    (h₃ : currentPending st.pendingBuilds st.cacheGeneration key = some p) :
    getBundleSizeStep st now key = (.join p, st) := by
  simp [getBundleSizeStep, h₁, h₂, h₃]

theorem step_start {st : BundlerState} {now : Nat} {key : String}
    (h₁ : cacheFresh st.cache now key = none)
    (h₂ : negativeFresh st.failedPackages now key = false)
    (h₃ : currentPending st.pendingBuilds st.cacheGeneration key = none) :
    getBundleSizeStep st now key =
      (.start st.nextPromise,
        { st with
            pendingBuilds := mset st.pendingBuilds key (st.cacheGeneration, st.nextPromise),
            nextPromise := st.nextPromise + 1 }) := by
  simp [getBundleSizeStep, h₁, h₂, h₃]

/-! ### Claim C1 -/

/-- Claim C1 counterexample: a key with a fresh negative entry (failed at
time 1, queried at time 2, well inside the 5-minute TTL) and a pending build
tagged with the current generation 0.  `getBundleCacheState` reports
`pending`, not the `failed` the claim's precedence (negative before pending)
would yield: the code checks the pending build before the negative cache. -/
theorem claim_C1_counterexample :
    (negativeFresh [("w:k", 1)] 2 "w:k" = true ∧
      currentPending [("w:k", (0, 0))] 0 "w:k" = some 0) ∧
    getBundleCacheState
      { cache := [], pendingBuilds := [("w:k", (0, 0))], failedPackages := [("w:k", 1)],
        cacheGeneration := 0, nextPromise := 1 } 2 "w:k" true = .pending ∧
    getBundleCacheState
      { cache := [], pendingBuilds := [("w:k", (0, 0))], failedPackages := [("w:k", 1)],
        cacheGeneration := 0, nextPromise := 1 } 2 "w:k" true ≠ .failed := by
  decide

/-- Claim C1 (amended): `getBundleCacheState` is a pure (non-mutating) query
returning one of the five states, evaluated in this order: fresh positive
cache entry first, then pending build tagged with the current generation,
then fresh negative entry, then bundler availability.  For a key with both a
fresh negative entry and a current-generation pending build, the pending
check wins — the opposite of the precedence `getBundleSize` applies. -/
theorem claim_C1_amended (st : BundlerState) (now : Nat) (key : String) (avail : Bool) :
    (∀ r, cacheFresh st.cache now key = some r →
      getBundleCacheState st now key avail = .cached) ∧
    (cacheFresh st.cache now key = none →
      (∀ p, currentPending st.pendingBuilds st.cacheGeneration key = some p →
        getBundleCacheState st now key avail = .pending) ∧
      (currentPending st.pendingBuilds st.cacheGeneration key = none →
        (negativeFresh st.failedPackages now key = true →
          getBundleCacheState st now key avail = .failed) ∧
        (negativeFresh st.failedPackages now key = false →
          (avail = false → getBundleCacheState st now key avail = .unavailable) ∧
          (avail = true → getBundleCacheState st now key avail = .missing)))) := by
  refine ⟨fun r hr => ?_, fun hc => ⟨fun p hp => ?_, fun hp => ⟨fun hn => ?_, fun hn => ⟨fun ha => ?_, fun ha => ?_⟩⟩⟩⟩ <;>
    simp_all [getBundleCacheState]

/-- Witness for C1: the amended theorem applied at a concrete state holding a
fresh positive entry. -/
theorem claim_C1_witness :
    getBundleCacheState
      { cache := [("w:k", ({ name := "p", size := 1, gzip := 1, version := "local" }, 10))],
        pendingBuilds := [], failedPackages := [], cacheGeneration := 0, nextPromise := 0 }
      11 "w:k" true = .cached :=
  (claim_C1_amended _ 11 "w:k" true).1
    { name := "p", size := 1, gzip := 1, version := "local" } (by decide)

/-! ### Claim C4 -/

/-- The processed named-imports list only depends on the set of non-empty,
non-"default" names: dedup kills duplicates, the filter kills "default" and
empty names, and sorting a duplicate-free list is determined by its set of
elements. -/
theorem processNamedImports_eq_of_mem_iff {l₁ l₂ : List String}
    (h : ∀ n, n ≠ "default" → (n ∈ l₁ ↔ n ∈ l₂)) :
    processNamedImports l₁ = processNamedImports l₂ := by
  haveI : IsTotal String strLe := ⟨fun a b => lexLe_total a.data b.data⟩
  haveI : IsTrans String strLe := ⟨fun _ _ _ h₁ h₂ => lexLe_trans h₁ h₂⟩
  haveI : IsAntisymm String strLe :=
    ⟨fun a b h₁ h₂ => by
      cases a; cases b
      exact congrArg String.mk (lexLe_antisymm h₁ h₂)⟩
  unfold processNamedImports
  set p : String → Bool := fun n => !(n == "") && !(n == "default") with hp
  have hmem : ∀ n, n ∈ (dedupFirst l₁).filter p ↔ n ∈ (dedupFirst l₂).filter p := by
    intro n
    rw [List.mem_filter, List.mem_filter, mem_dedupFirst, mem_dedupFirst]
    by_cases hd : n = "default"
    · subst hd
      have : p "default" = false := by decide
      simp [this]
    · rw [h n hd]
  have hnd₁ : ((dedupFirst l₁).filter p).Nodup := (nodup_dedupFirst l₁).filter p
  have hnd₂ : ((dedupFirst l₂).filter p).Nodup := (nodup_dedupFirst l₂).filter p
  have hperm : ((dedupFirst l₁).filter p).Perm ((dedupFirst l₂).filter p) :=
    (List.perm_ext_iff_of_nodup hnd₁ hnd₂).mpr hmem
  exact List.eq_of_perm_of_sorted
    (((List.perm_insertionSort strLe _).trans hperm).trans
      (List.perm_insertionSort strLe _).symm)
    (List.sorted_insertionSort strLe _)
    (List.sorted_insertionSort strLe _)

/-- Claim C4: the cache id is invariant under reordering and duplication of
the named-imports list and ignores the name "default" among them: two import
targets identical in specifier, kind and flags whose `namedImports` lists
contain the same names (as sets, up to "default") produce the same cache id. -/
theorem claim_C4 (packageName : String) (kind : ImportKind)
    (hd hns hside hall hloc : Bool) (l₁ l₂ : List String)
    (h : ∀ n, n ≠ "default" → (n ∈ l₁ ↔ n ∈ l₂)) :
    getImportCacheId
        { packageName, kind, namedImports := l₁, hasDefaultImport := hd,
          hasNamespaceImport := hns, isSideEffectOnly := hside,
          isExportAll := hall, isLocal := hloc } =
      getImportCacheId
        { packageName, kind, namedImports := l₂, hasDefaultImport := hd,
          hasNamespaceImport := hns, isSideEffectOnly := hside,
          isExportAll := hall, isLocal := hloc } := by
  simp only [getImportCacheId, createBundleRequest,
    processNamedImports_eq_of_mem_iff h]

/-- Witness for C4: named imports ["b","a"] and ["a","b"] for the same
specifier and flags produce the identical cache id, whose concrete value the
second conjunct evaluates. -/
theorem claim_C4_witness :
    getImportCacheId { packageName := "lodash", namedImports := ["b", "a"] } =
        getImportCacheId { packageName := "lodash", namedImports := ["a", "b"] } ∧
      getImportCacheId { packageName := "lodash", namedImports := ["b", "a"] } =
        some "import|lodash|all:0|default:0|ns:0|side:0|named:a,b" :=
  ⟨claim_C4 "lodash" .imp false false false false false ["b", "a"] ["a", "b"]
      (by
        intro n hn
        constructor <;> intro hm <;> simp only [List.mem_cons, List.not_mem_nil,
          or_false] at hm ⊢ <;> tauto),
    by decide⟩

/-! ### Claim C5 -/

/-- Claim C5: the synthesized entry content follows a first-match-wins
precedence over the flags: export-all wins, then side-effect-only, then
namespace (one import line plus one namespace re-export, subsuming
default/named), and otherwise a `default as` re-export line exactly when a
default import was requested and a named re-export line exactly when named
imports were requested, the two co-occurring when both are requested. -/
theorem claim_C5 (kind : ImportKind) (ms : String) (named : List String)
    (hd hns hside hall : Bool) :
    (hall = true →
      createEntryContent ⟨kind, ms, named, hd, hns, hside, hall⟩ =
        "export * from " ++ jsonQuote ms ++ ";") ∧
    (hall = false → hside = true →
      createEntryContent ⟨kind, ms, named, hd, hns, hside, hall⟩ =
        "import " ++ jsonQuote ms ++ ";") ∧
    (hall = false → hside = false → hns = true →
      createEntryContent ⟨kind, ms, named, hd, hns, hside, hall⟩ =
        "import * as __bundleSizePlusNs from " ++ jsonQuote ms ++ ";" ++ "\n" ++
          "export \x7b __bundleSizePlusNs \x7d;") ∧
    (hall = false → hside = false → hns = false → hd = true → named = [] →
      createEntryContent ⟨kind, ms, named, hd, hns, hside, hall⟩ =
        "export \x7b default as __bundleSizePlusDefault \x7d from " ++
          jsonQuote ms ++ ";") ∧
    (hall = false → hside = false → hns = false → hd = true → named ≠ [] →
      createEntryContent ⟨kind, ms, named, hd, hns, hside, hall⟩ =
        "export \x7b default as __bundleSizePlusDefault \x7d from " ++
            jsonQuote ms ++ ";" ++ "\n" ++
          ("export \x7b " ++ joinSep ", " named ++ " \x7d from " ++
            jsonQuote ms ++ ";")) ∧
    (hall = false → hside = false → hns = false → hd = false → named ≠ [] →
      createEntryContent ⟨kind, ms, named, hd, hns, hside, hall⟩ =
        "export \x7b " ++ joinSep ", " named ++ " \x7d from " ++
          jsonQuote ms ++ ";") ∧
    (hall = false → hside = false → hns = false → hd = false → named = [] →
      createEntryContent ⟨kind, ms, named, hd, hns, hside, hall⟩ = "") := by
  refine ⟨fun h1 => ?_, fun h1 h2 => ?_, fun h1 h2 h3 => ?_, fun h1 h2 h3 h4 h5 => ?_,
    fun h1 h2 h3 h4 h5 => ?_, fun h1 h2 h3 h4 h5 => ?_, fun h1 h2 h3 h4 h5 => ?_⟩ <;>
    subst h1 <;> try subst h2
  · simp [createEntryContent]
  · simp [createEntryContent]
  · subst h3; simp [createEntryContent, joinSep]
  · subst h3; subst h4; subst h5; simp [createEntryContent, joinSep]
  · subst h3; subst h4
    cases named with
    | nil => exact absurd rfl h5
    | cons n ns => simp [createEntryContent, joinSep]
  · subst h3; subst h4
    cases named with
    | nil => exact absurd rfl h5
    | cons n ns => simp [createEntryContent, joinSep]
  · subst h3; subst h4; subst h5; simp [createEntryContent, joinSep]

/-- Witness for C5: with both a default import and named imports requested
(and none of the higher-precedence flags), both re-export lines co-occur. -/
theorem claim_C5_witness :
    createEntryContent
        { kind := .imp, moduleSpecifier := "p", namedImports := ["a", "b"],
          hasDefaultImport := true, hasNamespaceImport := false,
          isSideEffectOnly := false, isExportAll := false } =
      "export \x7b default as __bundleSizePlusDefault \x7d from \"p\";\nexport \x7b a, b \x7d from \"p\";" := by
  obtain ⟨-, -, -, -, h5, -, -⟩ := claim_C5 .imp "p" ["a", "b"] true false false false
  rw [h5 rfl rfl rfl rfl (by decide)]
  decide

/-! ### Claim C9 -/

theorem floorLogAux_spec {b : Nat} (hb : 2 ≤ b) :
    ∀ (fuel n : Nat), 1 ≤ n → n ≤ fuel →
      b ^ floorLogAux b n fuel ≤ n ∧ n < b ^ (floorLogAux b n fuel + 1) := by
  intro fuel
  induction fuel with
  | zero => intro n h1 h2; omega
  | succ fuel ih =>
    intro n h1 h2
    rw [floorLogAux]
    by_cases hnb : n < b
    · rw [if_pos hnb]
      exact ⟨by simpa using h1, by simpa using hnb⟩
    · rw [if_neg hnb]
      push_neg at hnb
      have hb0 : 0 < b := by omega
      have hq1 : 1 ≤ n / b := (Nat.le_div_iff_mul_le hb0).mpr (by omega)
      have hqfuel : n / b ≤ fuel := by
        have : n / b < n := Nat.div_lt_self (by omega) (by omega)
        omega
      obtain ⟨ihl, ihr⟩ := ih (n / b) hq1 hqfuel
      refine ⟨?_, ?_⟩
      · calc b ^ (floorLogAux b (n / b) fuel + 1)
              = b ^ floorLogAux b (n / b) fuel * b := by rw [pow_succ]
          _ ≤ (n / b) * b := Nat.mul_le_mul_right b ihl
          _ ≤ n := Nat.div_mul_le_self n b
      · have hmod : n % b < b := Nat.mod_lt n hb0
        calc n = b * (n / b) + n % b := (Nat.div_add_mod n b).symm
          _ < b * (n / b) + b := by omega
          _ = b * (n / b + 1) := by rw [Nat.mul_succ]
          _ ≤ b * b ^ (floorLogAux b (n / b) fuel + 1) :=
              Nat.mul_le_mul_left b ihr
          _ = b ^ (floorLogAux b (n / b) fuel + 1 + 1) := by
              rw [Nat.mul_comm, ← pow_succ]

/-- `floorLog b n` really is the largest exponent `i` with `b ^ i ≤ n`. -/
theorem floorLog_spec {b n : Nat} (hb : 2 ≤ b) (hn : 1 ≤ n) :
    b ^ floorLog b n ≤ n ∧ n < b ^ (floorLog b n + 1) :=
  floorLogAux_spec hb n n hn le_rfl

theorem formatHundredths_whole (q : Nat) : formatHundredths (100 * q) = Nat.repr q := by
  unfold formatHundredths
  rw [Nat.mul_mod_right]
  simp [Nat.mul_div_cancel_left q (show 0 < 100 by norm_num)]

/-- When the value is a whole number of units, `formatSize` renders the bare
integer followed by the unit — no decimal point. -/
theorem formatSize_of_dvd {bytes : Nat} (h0 : 0 < bytes)
    (hdvd : 1024 ^ floorLog 1024 bytes ∣ bytes) :
    formatSize bytes =
      Nat.repr (bytes / 1024 ^ floorLog 1024 bytes) ++
        formatSizeUnits.getD (floorLog 1024 bytes) "undefined" := by
  set i := floorLog 1024 bytes with hi
  obtain ⟨q, hq⟩ := hdvd
  have hdpos : 0 < 1024 ^ i := pow_pos (by norm_num) i
  have hh : (200 * bytes + 1024 ^ i) / (2 * 1024 ^ i) = 100 * q := by
    rw [hq,
        show 200 * (1024 ^ i * q) + 1024 ^ i = 1024 ^ i * (200 * q + 1) by ring,
        show 2 * 1024 ^ i = 1024 ^ i * 2 by ring,
        Nat.mul_div_mul_left _ _ hdpos]
    omega
  have hqdiv : bytes / 1024 ^ i = q := by
    rw [hq, Nat.mul_div_cancel_left q hdpos]
  unfold formatSize
  rw [← hi, if_neg (by omega), hh, formatHundredths_whole, hqdiv]

/-- Claim C9 counterexample: at `1024 ^ 4` bytes the exponent is 4, off the
end of the four-element unit array, so the rendered string is the value
followed by the literal text "undefined" — not a unit from B/KB/MB/GB. -/
theorem claim_C9_counterexample :
    formatSize (1024 ^ 4) = "1undefined" ∧
    (∀ u ∈ formatSizeUnits,
      List.isSuffixOf u.data (formatSize (1024 ^ 4)).data = false) := by
  decide

/-- Claim C9 (amended): restricted to byte counts below `1024 ^ 4`.
`formatSize 0 = "0B"`; otherwise the exponent is the largest power of 1024
not exceeding the byte count and stays below the unit list's length, the
unit is drawn from B/KB/MB/GB, whole multiples of the chosen power render as
the bare integer with no decimal point, and the claim's two examples
evaluate as stated.  (At `1024 ^ 4` and beyond the unit index falls off the
array and the literal text "undefined" is appended instead — see the
counterexample.) -/
theorem claim_C9_amended :
    formatSize 0 = "0B" ∧
    (∀ bytes : Nat, 0 < bytes →
      1024 ^ floorLog 1024 bytes ≤ bytes ∧
        bytes < 1024 ^ (floorLog 1024 bytes + 1)) ∧
    (∀ bytes : Nat, 0 < bytes → bytes < 1024 ^ 4 → floorLog 1024 bytes < 4) ∧
    (∀ i : Nat, i < 4 → formatSizeUnits.getD i "undefined" ∈ formatSizeUnits) ∧
    (∀ bytes : Nat, 0 < bytes → 1024 ^ floorLog 1024 bytes ∣ bytes →
      formatSize bytes =
        Nat.repr (bytes / 1024 ^ floorLog 1024 bytes) ++
          formatSizeUnits.getD (floorLog 1024 bytes) "undefined") ∧
    formatSize 24576 = "24KB" ∧ formatSize 1048576 = "1MB" := by
  refine ⟨by decide, ?_, ?_, by decide, ?_, by decide, by decide⟩
  · intro bytes h0
    exact floorLog_spec (by norm_num) h0
  · intro bytes h0 hlt
    by_contra hge
    push_neg at hge
    have h1 : (1024 : Nat) ^ 4 ≤ 1024 ^ floorLog 1024 bytes :=
      Nat.pow_le_pow_right (by norm_num) hge
    have h2 := (floorLog_spec (b := 1024) (by norm_num) h0).1
    omega
  · intro bytes h0 hdvd
    exact formatSize_of_dvd h0 hdvd

/-- Witness for C9: the amended theorem applied at 24576 bytes — the chosen
exponent is largest-applicable and the whole-valued rendering applies. -/
theorem claim_C9_witness :
    (1024 ^ floorLog 1024 24576 ≤ 24576 ∧
      24576 < 1024 ^ (floorLog 1024 24576 + 1)) ∧
    floorLog 1024 24576 < 4 ∧
    formatSize 24576 =
      Nat.repr (24576 / 1024 ^ floorLog 1024 24576) ++
        formatSizeUnits.getD (floorLog 1024 24576) "undefined" :=
  ⟨claim_C9_amended.2.1 24576 (by decide),
    claim_C9_amended.2.2.1 24576 (by decide) (by decide),
    claim_C9_amended.2.2.2.2.1 24576 (by decide) (by decide)⟩

/-! ### Claim C10 -/

/-- Claim C10: a target whose module specifier normalizes (quote-strip, then
truncate at the first `?` or `#`) to the empty string or to a `node:`-prefixed
string produces no bundle request: `createBundleRequest` returns none, hence
`getImportCacheId` returns none and `getImportSize` / `getCachedImportSize`
never reach the bundler while `getImportCacheState` reports unavailable.  In
particular a specifier beginning with `#` after quote-stripping truncates to
the empty string (first conjunct), so it is rejected whole; so is a `node:`
built-in — as a whole request, not merely denied a version package name. -/
theorem claim_C10 :
    (∀ s : String, strStartsWith (stripQuotes s) "#" = true →
      normalizeModuleSpecifier s = "") ∧
    (∀ t : ImportTarget,
      (normalizeModuleSpecifier t.packageName = "" ∨
        strStartsWith (normalizeModuleSpecifier t.packageName) "node:" = true) →
      createBundleRequest t = none ∧
      getImportCacheId t = none ∧
      (∀ root st now, getImportSizeStep t root st now = none) ∧
      (∀ root st now, getCachedImportSize t root st now = none) ∧
      (∀ root st now avail, getImportCacheState t root st now avail = .unavailable)) := by
  constructor
  · intro s hs
    unfold normalizeModuleSpecifier
    cases hdata : (stripQuotes s).data with
    | nil => simp [hdata]
    | cons c cs =>
      unfold strStartsWith at hs
      rw [hdata] at hs
      have hc : c = '#' := by
        simp [List.isPrefixOf] at hs
        exact hs.symm
      subst hc
      simp [hdata, List.takeWhile]
  · intro t ht
    have hreq : createBundleRequest t = none := by
      unfold createBundleRequest
      by_cases hl : t.isLocal = true
      · rw [if_pos hl]
      · rw [if_neg hl]
        have hcond : (decide (normalizeModuleSpecifier t.packageName = "") ||
            strStartsWith (normalizeModuleSpecifier t.packageName) "node:") = true := by
          rcases ht with h | h
          · rw [h]; simp
          · rw [h]; simp
        rw [if_pos (by simpa using hcond)]
    refine ⟨hreq, ?_, ?_, ?_, ?_⟩
    · unfold getImportCacheId
      rw [hreq]
      rfl
    · intro root st now
      unfold getImportSizeStep
      cases root with
      | none => rfl
      | some r => rw [hreq]
    · intro root st now
      unfold getCachedImportSize
      cases root with
      | none => rfl
      | some r => rw [hreq]
    · intro root st now avail
      unfold getImportCacheState
      cases root with
      | none => rfl
      | some r => rw [hreq]

/-- Witness for C10: the alias form rejected via `#`-truncation, and a
`node:` built-in rejected as a whole request. -/
theorem claim_C10_witness :
    normalizeModuleSpecifier "#/alias" = "" ∧
    createBundleRequest { packageName := "#/alias" } = none ∧
    getImportCacheId { packageName := "node:fs" } = none ∧
    getImportCacheState { packageName := "node:fs" } (some "/ws")
      { cache := [], pendingBuilds := [], failedPackages := [],
        cacheGeneration := 0, nextPromise := 0 } 0 true = .unavailable :=
  ⟨claim_C10.1 "#/alias" (by decide),
    (claim_C10.2 { packageName := "#/alias" } (Or.inl (by decide))).1,
    (claim_C10.2 { packageName := "node:fs" } (Or.inr (by decide))).2.1,
    (claim_C10.2 { packageName := "node:fs" } (Or.inr (by decide))).2.2.2.2
      (some "/ws") _ 0 true⟩

/-! ### Claim C2 -/

/-- Claim C2: a build outcome is committed to the positive cache (success)
or negative cache (failure/null) only if the engine's generation still
equals the generation `G` the build started under (first two conjuncts);
and in the clear-while-in-flight scenario — a build started under the
current generation, `clearCache` bumping the generation before completion —
the eventual outcome lands in neither cache and a subsequent `getBundleSize`
call for the key starts a fresh build (third conjunct). -/
theorem claim_C2 (request : BundleRequest) (workspaceRoot cacheKey : String)
    (G : Nat) (env : BuildEnv) :
    (∀ st : BundlerState, st.cacheGeneration ≠ G →
      (buildAndMeasure request workspaceRoot cacheKey G env st).2.cache = st.cache ∧
      (buildAndMeasure request workspaceRoot cacheKey G env st).2.failedPackages =
        st.failedPackages) ∧
    (∀ st : BundlerState, st.cacheGeneration = G →
      (∀ sizes, env.bundleOutcome = .ok (some sizes) →
        ∃ r, (buildAndMeasure request workspaceRoot cacheKey G env st).1 = some r ∧
          mget (buildAndMeasure request workspaceRoot cacheKey G env st).2.cache
            cacheKey = some (r, env.now)) ∧
      ((env.bundleOutcome = .ok none ∨ ∃ e, env.bundleOutcome = .error e) →
        mget (buildAndMeasure request workspaceRoot cacheKey G env st).2.failedPackages
          cacheKey = some env.now)) ∧
    (∀ st₀ : BundlerState, st₀.cacheGeneration = G → ∀ p now,
      mget (settlePending
          (buildAndMeasure request workspaceRoot cacheKey G env (clearCache st₀)).2
          cacheKey p).cache cacheKey = none ∧
      mget (settlePending
          (buildAndMeasure request workspaceRoot cacheKey G env (clearCache st₀)).2
          cacheKey p).failedPackages cacheKey = none ∧
      (getBundleSizeStep
          (settlePending
            (buildAndMeasure request workspaceRoot cacheKey G env (clearCache st₀)).2
            cacheKey p) now cacheKey).1 =
        .start (settlePending
          (buildAndMeasure request workspaceRoot cacheKey G env (clearCache st₀)).2
          cacheKey p).nextPromise) := by
  refine ⟨?_, ?_, ?_⟩
  · intro st hne
    unfold buildAndMeasure recordFailure recordSuccess
    rcases env.bundleOutcome with e | o
    · simp [Ne.symm hne]
    · rcases o with _ | sizes <;> simp [Ne.symm hne]
  · intro st heq
    constructor
    · intro sizes hout
      unfold buildAndMeasure
      rw [hout]
      refine ⟨_, rfl, ?_⟩
      simp [recordSuccess, heq, mget_mset_self]
    · intro hout
      unfold buildAndMeasure
      rcases hout with hout | ⟨e, hout⟩ <;>
        · rw [hout]
          simp [recordFailure, heq, mget_mset_self]
  · intro st₀ hG p now
    have hgen : (clearCache st₀).cacheGeneration ≠ G := by
      unfold clearCache
      simp [hG]
    have hbm : (buildAndMeasure request workspaceRoot cacheKey G env
        (clearCache st₀)).2 = clearCache st₀ := by
      unfold buildAndMeasure recordFailure recordSuccess
      rcases env.bundleOutcome with e | o
      · simp [Ne.symm hgen]
      · rcases o with _ | sizes <;> simp [Ne.symm hgen]
    have hsettle : settlePending (clearCache st₀) cacheKey p = clearCache st₀ := by
      unfold settlePending clearCache
      simp [mget_nil]
    rw [hbm, hsettle]
    refine ⟨mget_nil _, mget_nil _, ?_⟩
    rw [step_start (by simp [cacheFresh, clearCache, mget_nil])
      (by simp [negativeFresh, clearCache, mget_nil])
      (by simp [currentPending, clearCache, mget_nil])]

/-- Witness for C2: the clear-while-in-flight scenario at a concrete state
with a successful build outcome — the result is in neither cache and the
next call starts afresh. -/
theorem claim_C2_witness :
    mget (settlePending
        (buildAndMeasure sampleRequest "/ws" "/ws:pkg:p" 0 sampleOkEnv
          (clearCache samplePendingState)).2 "/ws:pkg:p" 0).cache
      "/ws:pkg:p" = none ∧
    (getBundleSizeStep
        (settlePending
          (buildAndMeasure sampleRequest "/ws" "/ws:pkg:p" 0 sampleOkEnv
            (clearCache samplePendingState)).2 "/ws:pkg:p" 0) 60 "/ws:pkg:p").1 =
      .start (settlePending
        (buildAndMeasure sampleRequest "/ws" "/ws:pkg:p" 0 sampleOkEnv
          (clearCache samplePendingState)).2 "/ws:pkg:p" 0).nextPromise :=
  have h := (claim_C2 sampleRequest "/ws" "/ws:pkg:p" 0 sampleOkEnv).2.2
    samplePendingState rfl 0 60
  ⟨h.1, h.2.2⟩

/-! ### Claim C3 -/

/-- While a current-generation pending build exists for a key with no fresh
cache entries, every decision step joins it and leaves the state unchanged,
so no further step of a run starts a build. -/
theorem runCalls_all_join (st : BundlerState) (now : Nat) (key : String) (p : Nat)
    (h₁ : cacheFresh st.cache now key = none)
    (h₂ : negativeFresh st.failedPackages now key = false)
    (h₃ : currentPending st.pendingBuilds st.cacheGeneration key = some p) :
    ∀ m, runCalls m st now key = 0 := by
  intro m
  induction m with
  | zero => rfl
  | succ m ih =>
    rw [runCalls]
    rw [step_join h₁ h₂ h₃]
    simpa using ih

/-- Claim C3: for a key with no fresh positive or negative entry, a call
finding a current-generation pending build returns that shared promise with
the state unchanged (no new build); starting from no pending entry, `n + 1`
back-to-back calls invoke the bundler exactly once; and once a build
settles, the pending entry is removed precisely when it still holds the
same promise instance. -/
theorem claim_C3 (st : BundlerState) (now : Nat) (key : String) :
    (∀ p, cacheFresh st.cache now key = none →
      negativeFresh st.failedPackages now key = false →
      mget st.pendingBuilds key = some (st.cacheGeneration, p) →
      getBundleSizeStep st now key = (.join p, st)) ∧
    (cacheFresh st.cache now key = none →
      negativeFresh st.failedPackages now key = false →
      mget st.pendingBuilds key = none →
      ∀ n, runCalls (n + 1) st now key = 1) ∧
    (∀ g p, mget st.pendingBuilds key = some (g, p) →
      mget (settlePending st key p).pendingBuilds key = none) ∧
    (∀ g p q, mget st.pendingBuilds key = some (g, q) → q ≠ p →
      settlePending st key p = st) := by
  refine ⟨?_, ?_, ?_, ?_⟩
  · intro p h₁ h₂ h₃
    exact step_join h₁ h₂ (by simp [currentPending, h₃])
  · intro h₁ h₂ h₃ n
    rw [runCalls]
    rw [step_start h₁ h₂ (by simp [currentPending, h₃])]
    have hjoin := runCalls_all_join
      ({ st with
           pendingBuilds := mset st.pendingBuilds key (st.cacheGeneration, st.nextPromise),
           nextPromise := st.nextPromise + 1 })
      now key st.nextPromise h₁ h₂ (by simp [currentPending, mget_mset_self]) n
    simpa using hjoin
  · intro g p h
    unfold settlePending
    rw [h]
    simp only [if_pos rfl]
    exact mget_mdel_self _ _
  · intro g p q h hne
    unfold settlePending
    rw [h]
    simp [hne]

/-- Witness for C3: at a concrete state with one pending build under the
current generation and empty caches, a call joins the pending promise, two
fresh calls on the empty engine start exactly one build, and settling with
the matching promise removes the entry. -/
theorem claim_C3_witness :
    getBundleSizeStep samplePendingState 1 "/ws:pkg:p" =
      (.join 0, samplePendingState) ∧
    runCalls 2 (clearCache samplePendingState) 1 "/ws:pkg:p" = 1 ∧
    mget (settlePending samplePendingState "/ws:pkg:p" 0).pendingBuilds
      "/ws:pkg:p" = none :=
  ⟨(claim_C3 samplePendingState 1 "/ws:pkg:p").1 0 (by decide) (by decide) (by decide),
    (claim_C3 (clearCache samplePendingState) 1 "/ws:pkg:p").2.1
      (by decide) (by decide) (by decide) 1,
    (claim_C3 samplePendingState 1 "/ws:pkg:p").2.2.1 0 0 (by decide)⟩

/-! ### Claim C8 -/

/-- Claim C8: the negative TTL is five minutes; a failure committed under a
still-current generation records the completion time for the key; a later
call that finds that entry fresh (within the TTL window) and no fresh
positive entry returns null immediately, touching nothing; once the TTL has
elapsed (and no current-generation pending build exists) the call starts a
new build; and after `clearCache` the call starts a new build as well. -/
theorem claim_C8 (key : String) :
    failedCacheDuration = 5 * 60 * 1000 ∧
    (∀ request workspaceRoot G env (st : BundlerState), st.cacheGeneration = G →
      env.bundleOutcome = Except.ok none →
      mget (buildAndMeasure request workspaceRoot key G env st).2.failedPackages
        key = some env.now) ∧
    (∀ (st : BundlerState) (now t : Nat), mget st.failedPackages key = some t →
      t ≠ 0 → now - t < failedCacheDuration →
      cacheFresh st.cache now key = none →
      getBundleSizeStep st now key = (.negative, st)) ∧
    (∀ (st : BundlerState) (now t : Nat), mget st.failedPackages key = some t →
      failedCacheDuration ≤ now - t →
      cacheFresh st.cache now key = none →
      currentPending st.pendingBuilds st.cacheGeneration key = none →
      (getBundleSizeStep st now key).1 = .start st.nextPromise) ∧
    (∀ (st : BundlerState) (now : Nat),
      (getBundleSizeStep (clearCache st) now key).1 =
        .start (clearCache st).nextPromise) := by
  refine ⟨rfl, ?_, ?_, ?_, ?_⟩
  · intro request workspaceRoot G env st heq hout
    unfold buildAndMeasure
    rw [hout]
    simp [recordFailure, heq, mget_mset_self]
  · intro st now t hmem ht0 httl hcache
    refine step_negative hcache ?_
    simp [negativeFresh, hmem, ht0, httl]
  · intro st now t hmem httl hcache hpending
    rw [step_start hcache ?_ hpending]
    simp [negativeFresh, hmem]
    omega
  · intro st now
    rw [step_start (by simp [cacheFresh, clearCache, mget_nil])
      (by simp [negativeFresh, clearCache, mget_nil])
      (by simp [currentPending, clearCache, mget_nil])]

/-- Witness for C8: with a failure recorded at time 100, a call at time 200
(inside the five-minute window) returns null with no build; a call at time
400100 (past the window) starts a build; and after a cache clear a call
starts a build. -/
theorem claim_C8_witness :
    failedCacheDuration = 5 * 60 * 1000 ∧
    getBundleSizeStep
      { cache := [], pendingBuilds := [], failedPackages := [("/ws:pkg:p", 100)],
        cacheGeneration := 0, nextPromise := 0 } 200 "/ws:pkg:p" =
      (.negative,
        { cache := [], pendingBuilds := [], failedPackages := [("/ws:pkg:p", 100)],
          cacheGeneration := 0, nextPromise := 0 }) ∧
    (getBundleSizeStep
      { cache := [], pendingBuilds := [], failedPackages := [("/ws:pkg:p", 100)],
        cacheGeneration := 0, nextPromise := 0 } 400100 "/ws:pkg:p").1 = .start 0 ∧
    (getBundleSizeStep (clearCache samplePendingState) 200 "/ws:pkg:p").1 = .start 1 :=
  ⟨(claim_C8 "/ws:pkg:p").1,
    (claim_C8 "/ws:pkg:p").2.2.1 _ 200 100 (by decide) (by decide) (by decide) (by decide),
    (claim_C8 "/ws:pkg:p").2.2.2.1 _ 400100 100 (by decide) (by decide) (by decide)
      (by decide),
    (claim_C8 "/ws:pkg:p").2.2.2.2 samplePendingState 200⟩

/-! ### Claim C6 -/

/-- The empty memo is trivially coherent. -/
theorem resolveCacheCoherent_nil (resolve : String → String → ResolveResult) :
    resolveCacheCoherent resolve [] := by
  intro imp p r h
  simp [mget, List.lookup] at h

/-- Claim C6: the bare-specifier resolution hook yields no result when the
importer is absent or outside a `node_modules` directory, so resolution
failures in workspace code propagate; for an importer inside a dependency
install directory (on a non-reentrant event) it runs ordinary nested
resolution, externalizing the specifier exactly when that resolution errors
and passing the resolved path and its metadata through unmodified when it
succeeds; and its memo only ever holds those same answers. -/
theorem claim_C6 (resolve : String → String → ResolveResult)
    (cache : List ((String × String) × OnResolveOut)) (args : ResolveArgs)
    (hc : resolveCacheCoherent resolve cache) :
    ((args.importer = "" ∨ isInNodeModules args.importer = false) →
      (onResolveBare resolve cache args).1 = none) ∧
    (args.skipResolve = false → args.importer ≠ "" →
      isInNodeModules args.importer = true →
      ((resolve args.path args.importer).errors.length > 0 →
        (onResolveBare resolve cache args).1 =
          some { path := args.path, external := true }) ∧
      ((resolve args.path args.importer).errors.length = 0 →
        (onResolveBare resolve cache args).1 =
          some { path := (resolve args.path args.importer).path,
                 external := (resolve args.path args.importer).external,
                 nspace := some (resolve args.path args.importer).nspace,
                 sideEffects := some (resolve args.path args.importer).sideEffects })) ∧
    resolveCacheCoherent resolve (onResolveBare resolve cache args).2 := by
  have hfresh : ∀ himp : args.importer ≠ "", ∀ hnm : isInNodeModules args.importer = true,
      ∀ hskip : args.skipResolve = false,
      (onResolveBare resolve cache args).1 =
        some (freshResolveAnswer resolve args.importer args.path) ∧
      (onResolveBare resolve cache args).2 = cache ∨
      (onResolveBare resolve cache args).1 =
        some (freshResolveAnswer resolve args.importer args.path) ∧
      (onResolveBare resolve cache args).2 =
        mset cache (args.importer, args.path)
          (freshResolveAnswer resolve args.importer args.path) := by
    intro himp hnm hskip
    unfold onResolveBare
    rw [if_neg (by simp [hskip])]
    rw [if_neg (by simp [himp, hnm])]
    cases hm : mget cache (args.importer, args.path) with
    | some r =>
      left
      have := hc args.importer args.path r hm
      simp [hm, this]
    | none =>
      right
      simp [hm]
  refine ⟨?_, ?_, ?_⟩
  · intro h
    unfold onResolveBare
    by_cases hskip : args.skipResolve = true
    · rw [if_pos hskip]
    · rw [if_neg hskip]
      rw [if_pos ?_]
      rcases h with h | h
      · simp [h]
      · simp [h]
  · intro hskip himp hnm
    rcases hfresh himp hnm hskip with ⟨h1, _⟩ | ⟨h1, _⟩ <;>
      constructor <;> intro herr <;> rw [h1] <;>
        unfold freshResolveAnswer
    · rw [if_pos (by simpa using herr)]
    · rw [if_neg (by simp [herr])]
    · rw [if_pos (by simpa using herr)]
    · rw [if_neg (by simp [herr])]
  · by_cases hskip : args.skipResolve = true
    · unfold onResolveBare
      rw [if_pos hskip]
      exact hc
    · by_cases hout : args.importer = "" ∨ isInNodeModules args.importer = false
      · unfold onResolveBare
        rw [if_neg hskip, if_pos ?_]
        · exact hc
        · rcases hout with h | h
          · simp [h]
          · simp [h]
      · push_neg at hout
        have hnm : isInNodeModules args.importer = true := by
          rcases Bool.eq_false_or_eq_true (isInNodeModules args.importer) with h | h
          · exact h
          · exact absurd h hout.2
        rcases hfresh hout.1 hnm (by simpa using hskip) with ⟨_, h2⟩ | ⟨_, h2⟩
        · rw [h2]; exact hc
        · rw [h2]
          intro imp p r hm
          by_cases hkey : (imp, p) = (args.importer, args.path)
          · have h1 : imp = args.importer := congrArg Prod.fst hkey
            have h2' : p = args.path := congrArg Prod.snd hkey
            subst h1
            subst h2'
            rw [mget_mset_self] at hm
            exact (Option.some.inj hm).symm
          · rw [mget_mset_ne _ _ _ _ hkey] at hm
            exact hc imp p r hm

/-- Witness for C6: a workspace importer gets no result; a `node_modules`
importer gets the failing specifier externalized and the resolvable one
passed through unmodified. -/
theorem claim_C6_witness :
    (onResolveBare sampleResolve []
      { path := "optional-dep", importer := "/ws/src/app.ts", skipResolve := false }).1 =
        none ∧
    (onResolveBare sampleResolve []
      { path := "optional-dep", importer := "/ws/node_modules/a/index.js", skipResolve := false }).1 =
        some { path := "optional-dep", external := true } ∧
    (onResolveBare sampleResolve []
      { path := "b", importer := "/ws/node_modules/a/index.js", skipResolve := false }).1 =
        some { path := "/ws/node_modules/a/node_modules/b/index.js", external := false,
               nspace := some "file", sideEffects := some true } :=
  ⟨(claim_C6 sampleResolve []
      { path := "optional-dep", importer := "/ws/src/app.ts", skipResolve := false }
      (resolveCacheCoherent_nil _)).1 (Or.inr (by decide)),
    ((claim_C6 sampleResolve []
      { path := "optional-dep", importer := "/ws/node_modules/a/index.js", skipResolve := false }
      (resolveCacheCoherent_nil _)).2.1 rfl (by decide) (by decide)).1 (by decide),
    ((claim_C6 sampleResolve []
      { path := "b", importer := "/ws/node_modules/a/index.js", skipResolve := false }
      (resolveCacheCoherent_nil _)).2.1 rfl (by decide) (by decide)).2 (by decide)⟩

/-! ### Claim C7 -/

/-- Claim C7: whenever the bundle invocation succeeds, `buildAndMeasure`
produces a result — for every filesystem and manifest oracle, so a
version-lookup failure never fails the measurement — and its `version` field
is "local" when the request carries no `versionPackageName`, the version
read from `node_modules/<pkg>/package.json` when that lookup yields one, and
"unknown" when it does not (in particular when the manifest file is missing
or unreadable). -/
theorem claim_C7 (request : BundleRequest) (workspaceRoot cacheKey : String)
    (G : Nat) (env : BuildEnv) (st : BundlerState) (sizes : Nat × Nat)
    (h : env.bundleOutcome = Except.ok (some sizes)) :
    ∃ r, (buildAndMeasure request workspaceRoot cacheKey G env st).1 = some r ∧
      (request.versionPackageName = none → r.version = "local") ∧
      (∀ p v, request.versionPackageName = some p →
        getPackageVersion env p workspaceRoot = some v → r.version = v) ∧
      (∀ p, request.versionPackageName = some p →
        getPackageVersion env p workspaceRoot = none → r.version = "unknown") ∧
      (∀ p, request.versionPackageName = some p →
        env.fsRead (workspaceRoot ++ "/node_modules/" ++ p ++ "/package.json") = none →
        r.version = "unknown") := by
  unfold buildAndMeasure
  rw [h]
  refine ⟨_, rfl, ?_, ?_, ?_, ?_⟩
  · intro hnone
    simp [hnone]
  · intro p v hp hv
    simp [hp, hv]
  · intro p hp hv
    simp [hp, hv]
  · intro p hp hf
    simp [hp, getPackageVersion, hf]

/-- Witness for C7: under a filesystem where the manifest is unreadable the
successful measurement still produces a result, with version "unknown". -/
theorem claim_C7_witness :
    ∃ r, (buildAndMeasure sampleVersionRequest "/ws" "/ws:pkg:lodash" 0 sampleOkEnv
        sampleEmptyState).1 = some r ∧ r.version = "unknown" := by
  obtain ⟨r, h1, -, -, -, h4⟩ := claim_C7 sampleVersionRequest "/ws" "/ws:pkg:lodash"
    0 sampleOkEnv sampleEmptyState (10, 4) rfl
  exact ⟨r, h1, h4 "lodash" rfl rfl⟩

end BundleSizePlus
